import Mathlib

/-!
# Query engine of the inspection-region assessment

A shallow embedding of `solution 2/src/query_engine.cpp` (declarations in
`solution 3/src/query_engine.h`, fixture in `solution 3/tests/query_engine_test.cpp`).

Modelling choices.

* The table `inspection_region` is a list of rows (`Point`); every SQL statement the
  engine sends is interpreted on that list.
* A `double` is the rational it denotes; comparisons of doubles are exact.  The valid
  region reaches the store through `exec_params` and arrives unchanged.  The crop bounds
  are written into the SQL text with `ostringstream <<`, which prints 6 significant
  digits, and the store compares a column with the `float8` nearest to the printed
  number: `sql_literal` is that round trip.  The largest finite `double` is not modelled
  (no bound is taken to overflow).
* `std::set<long long>` is `Finset Int`; iterating over it visits the ids in ascending
  order.  No arithmetic is done on ids, group ids or categories, so they are `Int`.
* A C++ exception is the `error` alternative of `Except`.  The only exception the
  embedding can raise is the one PostgreSQL answers to the text `group_id IN ()`, which
  `process_crop` writes when `one_of_groups` is an empty array.
* The query document is typed: a crop object carries its four region bounds and the
  optional keys `category`, `one_of_groups`, `proper`; a query object carries the
  optional keys `operator_crop`, `operator_and`, `operator_or`.
-/

namespace QueryEngine

/-- Record of `struct Point` (one row of `inspection_region`). -/
structure Point where
  id : Int
  x : ℚ
  y : ℚ
  category : Int
  group_id : Int
deriving DecidableEq

/-- Record of `struct Rectangle`. -/
structure Rectangle where
  x_min : ℚ
  y_min : ℚ
  x_max : ℚ
  y_max : ℚ
deriving DecidableEq

/-- The object stored under the key `operator_crop`. -/
structure CropSpec where
  region : Rectangle
  category : Option Int
  one_of_groups : Option (List Int)
  proper : Option Bool
deriving DecidableEq

/-- A query object, given by the operator keys it contains. -/
inductive QueryNode where
  | mk (operator_crop : Option CropSpec) (operator_and : Option (List QueryNode))
      (operator_or : Option (List QueryNode))

/-- Value under the key `operator_crop`, when the object has that key. -/
def QueryNode.operator_crop : QueryNode → Option CropSpec
  | .mk c _ _ => c

/-- Value under the key `operator_and`, when the object has that key. -/
def QueryNode.operator_and : QueryNode → Option (List QueryNode)
  | .mk _ a _ => a

/-- Value under the key `operator_or`, when the object has that key. -/
def QueryNode.operator_or : QueryNode → Option (List QueryNode)
  | .mk _ _ o => o

/-- The document handed to `execute_query`. -/
structure QueryDoc where
  valid_region : Rectangle
  query : QueryNode

/-- Exceptions that reach the caller of the engine. -/
inductive EngineError where
  | sql_syntax_error
deriving DecidableEq

/-- Equality of results is decided on the payload. -/
instance instDecidableEqExcept {ε α : Type} [DecidableEq ε] [DecidableEq α] :
    DecidableEq (Except ε α)
  | .ok a, .ok b => decidable_of_iff (a = b) ⟨fun h => congrArg Except.ok h, Except.ok.inj⟩
  | .error a, .error b =>
    decidable_of_iff (a = b) ⟨fun h => congrArg Except.error h, Except.error.inj⟩
  | .ok _, .error _ => isFalse (fun h => Except.noConfusion h)
  | .error _, .ok _ => isFalse (fun h => Except.noConfusion h)

/-- `Point::operator<`. -/
def Point.lt (p other : Point) : Bool :=
  if p.y ≠ other.y then decide (p.y < other.y) else decide (p.x < other.x)

/-- `Rectangle::contains`. -/
def Rectangle.contains (r : Rectangle) (x y : ℚ) : Bool :=
  decide (x ≥ r.x_min) && decide (x ≤ r.x_max) && decide (y ≥ r.y_min) && decide (y ≤ r.y_max)

/-- The SQL condition
`coord_x >= x_min AND coord_x <= x_max AND coord_y >= y_min AND coord_y <= y_max`
on one row. -/
def sql_between (r : Rectangle) (row : Point) : Bool :=
  decide (row.x ≥ r.x_min) && decide (row.x ≤ r.x_max) &&
    decide (row.y ≥ r.y_min) && decide (row.y ≤ r.y_max)

/-- `QueryEngine::get_valid_point_ids`: the ids of the rows inside `valid_region_`. -/
def get_valid_point_ids (store : List Point) (valid_region_ : Rectangle) : Finset Int :=
  let res := store.filter (fun row => sql_between valid_region_ row)
  res.foldl (fun valid_ids row => insert row.id valid_ids) ∅

/-- `QueryEngine::get_proper_groups`: `GROUP BY group_id HAVING COUNT(*) = SUM(CASE ...)`,
the case expression testing the row against `valid_region_`. -/
def get_proper_groups (store : List Point) (valid_region_ : Rectangle) : Finset Int :=
  let groups := (store.map Point.group_id).dedup
  let res := groups.filter (fun g =>
    let rows := store.filter (fun row => decide (row.group_id = g))
    decide (rows.length =
      (rows.map (fun row => if sql_between valid_region_ row then 1 else 0)).sum))
  res.foldl (fun proper_groups g => insert g proper_groups) ∅

/-- Quotient `a / b` rounded to the nearest integer, a tie going to the even one. -/
def round_half_even (a b : Nat) : Nat :=
  let q := a / b
  let r := a % b
  if 2 * r < b then q else if b < 2 * r then q + 1 else if q % 2 = 0 then q else q + 1

/-- Number of times `n` can be divided by `b` before it drops below `b`. -/
def log_floor_aux (b : Nat) : Nat → Nat → Nat
  | 0, _ => 0
  | fuel + 1, n => if n < b then 0 else log_floor_aux b fuel (n / b) + 1

/-- The largest `k` with `b ^ k ≤ n`, for `n ≥ 1` and `b ≥ 2`. -/
def log_floor (b n : Nat) : Nat := log_floor_aux b n n

/-- Test `b ^ e ≤ n / d`, without fractions. -/
def pow_le_ratio (b : Nat) (e : Int) (n d : Nat) : Bool :=
  if 0 ≤ e then decide (b ^ e.toNat * d ≤ n) else decide (d ≤ n * b ^ (-e).toNat)

/-- The exponent `e` with `b ^ e ≤ n / d < b ^ (e + 1)`, for `n, d ≥ 1`. -/
def exponent_floor (b n d : Nat) : Int :=
  let e0 : Int := (log_floor b n : Int) - (log_floor b d : Int)
  if pow_le_ratio b e0 n d then e0 else e0 - 1

/-- The number `x` rounded to `digits` significant digits in base `b` (nearest, ties to
even); with `min_q` the last kept digit is never below the place `b ^ min_q`. -/
def round_sig (b digits : Nat) (min_q : Option Int) (x : ℚ) : ℚ :=
  if x = 0 then 0 else
    let n := x.num.natAbs
    let d := x.den
    let e := exponent_floor b n d
    let q0 : Int := e - ((digits : Int) - 1)
    let q : Int := match min_q with
      | some m => max q0 m
      | none => q0
    let v : ℚ :=
      if 0 ≤ q then mkRat (round_half_even n (d * b ^ q.toNat) * b ^ q.toNat : Nat) 1
      else mkRat (round_half_even (n * b ^ (-q).toNat) d : Nat) (b ^ (-q).toNat)
    if x < 0 then -v else v

/-- The number whose text `std::ostringstream << double` writes with the default format
(`%g`, precision 6): the value rounded to 6 significant decimal digits. -/
def stream_out (x : ℚ) : ℚ := round_sig 10 6 none x

/-- The `float8` nearest to a decimal number: 53 significant bits, ties to even, the
last bit never below `2 ^ (-1074)`. -/
def to_double (x : ℚ) : ℚ := round_sig 2 53 (some (-1074)) x

/-- The number the store compares a column with when `process_crop` has written the
`double` `x` into the SQL text: the printed decimal, read as `float8`. -/
def sql_literal (x : ℚ) : ℚ := to_double (stream_out x)

/-- The rectangle the store tests when the bounds of `r` were written into the SQL
text. -/
def Rectangle.sent (r : Rectangle) : Rectangle :=
  ⟨sql_literal r.x_min, sql_literal r.y_min, sql_literal r.x_max, sql_literal r.y_max⟩

/-- The statement `process_crop` builds and runs with `txn.exec`: the region condition
with the four bounds written by `<<`, then `AND category = c` when the key is present,
then `AND group_id IN (g1, ..., gn)` when the key is present.  With an empty array the
loop writes nothing between the brackets and the text is `group_id IN ()`; PostgreSQL
answers it with a syntax error, which `txn.exec` throws as `pqxx::sql_error`. -/
def crop_select (store : List Point) (crop_region : Rectangle) (crop_op : CropSpec) :
    Except EngineError (List Point) :=
  match crop_op.one_of_groups with
  | some [] => Except.error EngineError.sql_syntax_error
  | one_of_groups =>
    Except.ok (store.filter (fun row =>
      sql_between crop_region.sent row &&
      (match crop_op.category with
        | some category => decide (row.category = category)
        | none => true) &&
      (match one_of_groups with
        | some groups => decide (row.group_id ∈ groups)
        | none => true)))

/-- The loop of the `proper` branch of `process_crop`: a row of `res` is kept when its
group is in `proper_groups` and the two counts over its group agree; the second count
carries the crop bounds written by `<<`. -/
def proper_rows (store : List Point) (crop_region : Rectangle) (proper_groups : Finset Int)
    (res : List Point) : Finset Int :=
  res.foldl (fun result_ids row =>
    if row.group_id ∈ proper_groups then
      let total_in_group := (store.filter (fun r => decide (r.group_id = row.group_id))).length
      let in_crop := (store.filter (fun r =>
        decide (r.group_id = row.group_id) && sql_between crop_region.sent r)).length
      if total_in_group = in_crop then insert row.id result_ids else result_ids
    else result_ids) ∅

/-- `QueryEngine::process_crop`.  The set `candidate_groups` of the source is filled and
never read; it is left out. -/
def process_crop (store : List Point) (valid_region_ : Rectangle) (crop_op : CropSpec) :
    Except EngineError (Finset Int) := do
  let crop_region := crop_op.region
  let res ← crop_select store crop_region crop_op
  let candidate_ids : Finset Int := res.foldl (fun ids row => insert row.id ids) ∅
  let result_ids : Finset Int :=
    if crop_op.proper = some true then
      proper_rows store crop_region (get_proper_groups store valid_region_) res
    else candidate_ids
  let valid_ids := get_valid_point_ids store valid_region_
  pure (result_ids ∩ valid_ids)

/-- `QueryEngine::process_query`: only the `operator_crop` branch is live; every other
object falls through to `return std::set<long long>()`. -/
def process_query (store : List Point) (valid_region_ : Rectangle) (query_obj : QueryNode) :
    Except EngineError (Finset Int) :=
  match query_obj.operator_crop with
  | some crop_op => process_crop store valid_region_ crop_op
  | none => pure ∅

/-- Iteration order of a `std::set<long long>`: its elements in ascending order. -/
def ascending (s : Finset Int) : List Int :=
  Quot.liftOn s.val (fun l => l.insertionSort (· ≤ ·)) (fun _ _ h =>
    List.eq_of_perm_of_sorted
      (((List.perm_insertionSort _ _).trans h).trans (List.perm_insertionSort _ _).symm)
      (List.sorted_insertionSort _ _) (List.sorted_insertionSort _ _))

/-- The record-fetch loop of `execute_query`: for each id in ascending order, the first
row of `SELECT ... WHERE id = $1`, skipped when the result is empty. -/
def fetch_points (store : List Point) (result_ids : Finset Int) : List Point :=
  (ascending result_ids).filterMap (fun id =>
    (store.filter (fun row => decide (row.id = id))).head?)

/-- `std::sort(points.begin(), points.end())` with `Point::operator<`: an insertion sort,
which places no element after one it is less than. -/
def sort_points (points : List Point) : List Point :=
  points.insertionSort (fun p q => Point.lt q p = false)

/-- `QueryEngine::execute_query`. -/
def execute_query (store : List Point) (query_json : QueryDoc) :
    Except EngineError (List Point) := do
  let valid_region_ := query_json.valid_region
  let result_ids ← process_query store valid_region_ query_json.query
  let points := fetch_points store result_ids
  pure (sort_points points)

/-- The result-assembly step of `execute_query` (everything after the call of
`process_query`): the record-fetch loop over the final id set, then `std::sort`. -/
def assemble_result (store : List Point) (result_ids : Finset Int) :
    Except EngineError (List Point) :=
  pure (sort_points (fetch_points store result_ids))

/-! ### Fixture of `query_engine_test.cpp` -/

/-- The six rows inserted by `SetUp`. -/
def fixture : List Point :=
  [ ⟨1, 10, 10, 1, 0⟩, ⟨2, 20, 20, 2, 0⟩, ⟨3, 30, 30, 1, 1⟩,
    ⟨4, 150, 150, 2, 1⟩, ⟨5, 40, 40, 1, 2⟩, ⟨6, 50, 50, 1, 2⟩ ]

/-- The `double` `50 - 2^(-20)`, which `<<` prints as `50`. -/
def just_below_50 : ℚ := mkRat 52428799 1048576

/-- The rectangle `[a,b]-[c,d]`. -/
def rect (a b c d : ℚ) : Rectangle := ⟨a, b, c, d⟩

/-- A crop object with the region key only. -/
def cropOf (r : Rectangle) : CropSpec := ⟨r, none, none, none⟩

/-- The query object with the single key `operator_crop`. -/
def opCrop (c : CropSpec) : QueryNode := .mk (some c) none none

/-- The query object with the single key `operator_and`. -/
def opAnd (cs : List QueryNode) : QueryNode := .mk none (some cs) none

/-- The query object with the single key `operator_or`. -/
def opOr (cs : List QueryNode) : QueryNode := .mk none none (some cs)

/-! ### Sets named by the specification -/

/-- Step 2 of the crop evaluation: the category filter, when present. -/
def passes_category (c : CropSpec) (p : Point) : Bool :=
  match c.category with
  | some k => decide (p.category = k)
  | none => true

/-- Step 3 of the crop evaluation: the group allow-list, when present. -/
def passes_groups (c : CropSpec) (p : Point) : Bool :=
  match c.one_of_groups with
  | some gs => decide (p.group_id ∈ gs)
  | none => true

/-- Every stored point of group `g` lies inside `r` (inclusive bounds). -/
def group_inside (store : List Point) (r : Rectangle) (g : Int) : Bool :=
  store.all (fun q => !decide (q.group_id = g) || r.contains q.x q.y)

/-- The set of ids of the stored points that satisfy `P`. -/
def ids_where (store : List Point) (P : Point → Bool) : Finset Int :=
  ((store.filter P).map Point.id).toFinset

/-- The table has no two rows with the same id (`PRIMARY KEY (id)`). -/
def unique_ids (store : List Point) : Prop :=
  (store.map Point.id).Nodup

instance (store : List Point) : Decidable (unique_ids store) :=
  inferInstanceAs (Decidable ((store.map Point.id).Nodup))

/-- The statement that `process_crop` sends is accepted by the store: `one_of_groups`
is absent or has at least one element. -/
def CropSpec.accepted (c : CropSpec) : Prop :=
  c.one_of_groups ≠ some []

instance (c : CropSpec) : Decidable c.accepted :=
  inferInstanceAs (Decidable (c.one_of_groups ≠ some []))

/-- A query object whose crop, if it has one, is accepted by the store. -/
def QueryNode.accepted (q : QueryNode) : Prop :=
  ∀ c, q.operator_crop = some c → c.accepted

/-- A query object of the kinds the specification calls malformed: no `operator_crop`
key, and each of `operator_and`, `operator_or` absent or holding zero children. -/
def QueryNode.malformed (q : QueryNode) : Prop :=
  q.operator_crop = none ∧ (q.operator_and = none ∨ q.operator_and = some []) ∧
    (q.operator_or = none ∨ q.operator_or = some [])

/-- The four bounds of `r` survive being written into the SQL text and read back. -/
def Rectangle.prints_exactly (r : Rectangle) : Prop :=
  sql_literal r.x_min = r.x_min ∧ sql_literal r.y_min = r.y_min ∧
    sql_literal r.x_max = r.x_max ∧ sql_literal r.y_max = r.y_max

instance (r : Rectangle) : Decidable r.prints_exactly :=
  inferInstanceAs (Decidable
    (sql_literal r.x_min = r.x_min ∧ sql_literal r.y_min = r.y_min ∧
      sql_literal r.x_max = r.x_max ∧ sql_literal r.y_max = r.y_max))

/-- A rectangle with `min > max` on either axis. -/
def Rectangle.invalid (r : Rectangle) : Prop :=
  r.x_min > r.x_max ∨ r.y_min > r.y_max

instance (r : Rectangle) : Decidable r.invalid :=
  inferInstanceAs (Decidable (r.x_min > r.x_max ∨ r.y_min > r.y_max))

/-- The rectangle `r` is contained in the rectangle `v`, bound by bound. -/
def Rectangle.inside (r v : Rectangle) : Prop :=
  v.x_min ≤ r.x_min ∧ r.x_max ≤ v.x_max ∧ v.y_min ≤ r.y_min ∧ r.y_max ≤ v.y_max

instance (r v : Rectangle) : Decidable (r.inside v) :=
  inferInstanceAs (Decidable
    (v.x_min ≤ r.x_min ∧ r.x_max ≤ v.x_max ∧ v.y_min ≤ r.y_min ∧ r.y_max ≤ v.y_max))

/-! ### Folds into a set -/

theorem mem_foldl_insert_if {β : Type} (f : β → Int) (c : β → Prop) [DecidablePred c]
    (l : List β) (s0 : Finset Int) (x : Int) :
    x ∈ l.foldl (fun s a => if c a then insert (f a) s else s) s0 ↔
      x ∈ s0 ∨ ∃ a ∈ l, c a ∧ f a = x := by
  induction l generalizing s0 with
  | nil => simp
  | cons b l ih =>
    rw [List.foldl_cons, ih]
    by_cases hb : c b
    · simp only [hb, if_true, Finset.mem_insert, List.mem_cons, exists_eq_or_imp, true_and]
      constructor
      · rintro ((h | h) | h)
        · exact Or.inr (Or.inl h.symm)
        · exact Or.inl h
        · exact Or.inr (Or.inr h)
      · rintro (h | h | h)
        · exact Or.inl (Or.inr h)
        · exact Or.inl (Or.inl h.symm)
        · exact Or.inr h
    · simp [hb]

theorem mem_foldl_insert {β : Type} (f : β → Int) (l : List β) (x : Int) :
    x ∈ l.foldl (fun s a => insert (f a) s) (∅ : Finset Int) ↔ ∃ a ∈ l, f a = x := by
  have h := mem_foldl_insert_if f (fun _ => True) l ∅ x
  simpa using h

/-! ### The two ways the engine asks whether a whole group lies in a rectangle -/

theorem length_filter_and_le {β : Type} (p q : β → Bool) (l : List β) :
    (l.filter (fun a => p a && q a)).length ≤ (l.filter p).length := by
  induction l with
  | nil => simp
  | cons b l ih =>
    cases hp : p b <;> cases hq : q b <;> simp [List.filter_cons, hp, hq]
    all_goals omega

theorem count_eq_iff {β : Type} (p q : β → Bool) (l : List β) :
    (l.filter p).length = (l.filter (fun a => p a && q a)).length ↔
      ∀ a ∈ l, p a = true → q a = true := by
  induction l with
  | nil => simp
  | cons b l ih =>
    have hle := length_filter_and_le p q l
    cases hp : p b <;> cases hq : q b <;> simp [List.filter_cons, hp, hq, ih]
    omega

theorem sum_case_le {β : Type} (q : β → Bool) (l : List β) :
    (l.map (fun a => if q a then 1 else 0)).sum ≤ l.length := by
  induction l with
  | nil => simp
  | cons b l ih =>
    cases hq : q b <;>
      simp only [List.map_cons, List.sum_cons, List.length_cons, hq, if_true, if_false,
        Bool.false_eq_true] <;> omega

theorem count_eq_sum_iff {β : Type} (q : β → Bool) (l : List β) :
    l.length = (l.map (fun a => if q a then 1 else 0)).sum ↔ ∀ a ∈ l, q a = true := by
  induction l with
  | nil => simp
  | cons b l ih =>
    have hle := sum_case_le q l
    cases hq : q b
    · simp only [List.map_cons, List.sum_cons, List.length_cons, hq, if_false,
        Bool.false_eq_true, List.mem_cons, forall_eq_or_imp, false_and, iff_false]
      omega
    · simp only [List.map_cons, List.sum_cons, List.length_cons, hq, if_true,
        List.mem_cons, forall_eq_or_imp, true_and, ← ih]
      omega

theorem group_inside_iff (store : List Point) (r : Rectangle) (g : Int) :
    group_inside store r g = true ↔
      ∀ q ∈ store, q.group_id = g → r.contains q.x q.y = true := by
  unfold group_inside
  rw [List.all_eq_true]
  constructor
  · intro h q hq hg
    have := h q hq
    simpa [hg] using this
  · intro h q hq
    by_cases hg : q.group_id = g
    · simp [hg, h q hq hg]
    · simp [hg]

theorem sql_between_eq_contains (r : Rectangle) (p : Point) :
    sql_between r p = r.contains p.x p.y := rfl

theorem contains_iff (r : Rectangle) (x y : ℚ) :
    r.contains x y = true ↔ r.x_min ≤ x ∧ x ≤ r.x_max ∧ r.y_min ≤ y ∧ y ≤ r.y_max := by
  simp [Rectangle.contains, and_assoc]

theorem eq_of_unique_ids {store : List Point} (hU : unique_ids store) {p q : Point}
    (hp : p ∈ store) (hq : q ∈ store) (h : p.id = q.id) : p = q :=
  List.inj_on_of_nodup_map hU hp hq h

/-! ### What each helper of the engine returns -/

theorem mem_get_valid_point_ids (store : List Point) (V : Rectangle) (id : Int) :
    id ∈ get_valid_point_ids store V ↔
      ∃ p ∈ store, V.contains p.x p.y = true ∧ p.id = id := by
  unfold get_valid_point_ids
  simp only [mem_foldl_insert, List.mem_filter, sql_between_eq_contains]
  constructor
  · rintro ⟨p, ⟨hp, hv⟩, rfl⟩
    exact ⟨p, hp, hv, rfl⟩
  · rintro ⟨p, hp, hv, rfl⟩
    exact ⟨p, ⟨hp, hv⟩, rfl⟩

theorem mem_get_proper_groups (store : List Point) (V : Rectangle) (g : Int) :
    g ∈ get_proper_groups store V ↔
      (∃ p ∈ store, p.group_id = g) ∧ group_inside store V g = true := by
  unfold get_proper_groups
  simp only [mem_foldl_insert, List.mem_filter, List.mem_dedup, List.mem_map,
    decide_eq_true_eq, count_eq_sum_iff, exists_eq_right, group_inside_iff,
    sql_between_eq_contains]
  constructor
  · rintro ⟨hex, hall⟩
    exact ⟨hex, fun q hq hg => hall q ⟨hq, hg⟩⟩
  · rintro ⟨hex, hall⟩
    exact ⟨hex, fun q hq => hall q hq.1 hq.2⟩

theorem mem_proper_rows (store : List Point) (R : Rectangle) (pg : Finset Int)
    (res : List Point) (id : Int) :
    id ∈ proper_rows store R pg res ↔
      ∃ row ∈ res, row.group_id ∈ pg ∧ group_inside store R.sent row.group_id = true ∧
        row.id = id := by
  unfold proper_rows
  have hfun : (fun (result_ids : Finset Int) (row : Point) =>
      if row.group_id ∈ pg then
        let total_in_group :=
          (store.filter (fun r => decide (r.group_id = row.group_id))).length
        let in_crop := (store.filter (fun r =>
          decide (r.group_id = row.group_id) && sql_between R.sent r)).length
        if total_in_group = in_crop then insert row.id result_ids else result_ids
      else result_ids) =
      (fun (result_ids : Finset Int) (row : Point) =>
        if row.group_id ∈ pg ∧ group_inside store R.sent row.group_id = true then
          insert row.id result_ids else result_ids) := by
    funext result_ids row
    have hc := count_eq_iff (fun r : Point => decide (r.group_id = row.group_id))
      (fun r => sql_between R.sent r) store
    have hg := group_inside_iff store R.sent row.group_id
    by_cases h1 : row.group_id ∈ pg
    · by_cases h2 : group_inside store R.sent row.group_id = true
      · have h3 : (store.filter (fun r => decide (r.group_id = row.group_id))).length =
            (store.filter (fun r =>
              decide (r.group_id = row.group_id) && sql_between R.sent r)).length := by
          rw [hc]
          intro a ha hga
          exact hg.mp h2 a ha (by simpa using hga)
        simp [h1, h2, h3]
      · have h3 : ¬ (store.filter (fun r => decide (r.group_id = row.group_id))).length =
            (store.filter (fun r =>
              decide (r.group_id = row.group_id) && sql_between R.sent r)).length := by
          rw [hc]
          intro hall
          apply h2
          rw [hg]
          intro q hq hqg
          exact hall q hq (by simpa using hqg)
        simp [h1, h2, h3]
    · simp [h1]
  rw [hfun, mem_foldl_insert_if (fun row : Point => row.id)
    (fun row => row.group_id ∈ pg ∧ group_inside store R.sent row.group_id = true)]
  simp [and_assoc]

theorem crop_select_accepted (store : List Point) (c : CropSpec) (h : c.accepted) :
    crop_select store c.region c = .ok (store.filter (fun p =>
      c.region.sent.contains p.x p.y && passes_category c p && passes_groups c p)) := by
  unfold crop_select passes_category passes_groups
  unfold CropSpec.accepted at h
  split
  · rename_i heq
    exact absurd heq h
  · rfl

theorem crop_select_rejected (store : List Point) (c : CropSpec)
    (h : c.one_of_groups = some []) :
    crop_select store c.region c = .error .sql_syntax_error := by
  unfold crop_select
  rw [h]

theorem mem_ids_where (store : List Point) (P : Point → Bool) (id : Int) :
    id ∈ ids_where store P ↔ ∃ p ∈ store, P p = true ∧ p.id = id := by
  unfold ids_where
  simp only [List.mem_toFinset, List.mem_map, List.mem_filter]
  constructor
  · rintro ⟨p, ⟨hp, hP⟩, rfl⟩
    exact ⟨p, hp, hP, rfl⟩
  · rintro ⟨p, hp, hP, rfl⟩
    exact ⟨p, ⟨hp, hP⟩, rfl⟩

theorem exists_both_of_unique {store : List Point} (hU : unique_ids store)
    (P Q : Point → Prop) (id : Int) :
    ((∃ p ∈ store, P p ∧ p.id = id) ∧ (∃ q ∈ store, Q q ∧ q.id = id)) ↔
      ∃ p ∈ store, (P p ∧ Q p) ∧ p.id = id := by
  constructor
  · rintro ⟨⟨p, hp, hP, hpi⟩, ⟨q, hq, hQ, hqi⟩⟩
    have hpq : p = q := eq_of_unique_ids hU hp hq (hpi.trans hqi.symm)
    subst hpq
    exact ⟨p, hp, ⟨hP, hQ⟩, hpi⟩
  · rintro ⟨p, hp, ⟨hP, hQ⟩, hpi⟩
    exact ⟨⟨p, hp, hP, hpi⟩, ⟨p, hp, hQ, hpi⟩⟩

/-- On an accepted crop, `process_crop` returns the candidate ids (or, with `proper`, the
ids kept by the proper loop) intersected with the valid ids. -/
theorem process_crop_accepted (store : List Point) (V : Rectangle) (c : CropSpec)
    (h : c.accepted) :
    process_crop store V c = .ok
      ((if c.proper = some true then
          proper_rows store c.region (get_proper_groups store V)
            (store.filter (fun p =>
              c.region.sent.contains p.x p.y && passes_category c p && passes_groups c p))
        else
          (store.filter (fun p =>
              c.region.sent.contains p.x p.y && passes_category c p && passes_groups c p)).foldl
            (fun ids row => insert row.id ids) ∅) ∩ get_valid_point_ids store V) := by
  unfold process_crop
  simp only [crop_select_accepted store c h]
  rfl

/-- On a crop whose `one_of_groups` is an empty array, `process_crop` raises. -/
theorem process_crop_rejected (store : List Point) (V : Rectangle) (c : CropSpec)
    (h : c.one_of_groups = some []) :
    process_crop store V c = .error .sql_syntax_error := by
  unfold process_crop
  simp only [crop_select_rejected store c h]
  rfl

theorem process_crop_ok_accepted {store : List Point} {V : Rectangle} {c : CropSpec}
    {S : Finset Int} (h : process_crop store V c = .ok S) : c.accepted := by
  intro hempty
  rw [process_crop_rejected store V c hempty] at h
  exact Except.noConfusion h

/-- Membership in the result of a crop without `proper`. -/
theorem mem_process_crop_plain (store : List Point) (V : Rectangle) (c : CropSpec)
    (hacc : c.accepted) (hp : c.proper ≠ some true) (id : Int) :
    ∃ S, process_crop store V c = .ok S ∧
      (id ∈ S ↔
        (∃ p ∈ store, (c.region.sent.contains p.x p.y = true ∧ passes_category c p = true ∧
            passes_groups c p = true) ∧ p.id = id) ∧
        (∃ q ∈ store, V.contains q.x q.y = true ∧ q.id = id)) := by
  refine ⟨_, process_crop_accepted store V c hacc, ?_⟩
  rw [if_neg hp, Finset.mem_inter, mem_foldl_insert, mem_get_valid_point_ids]
  simp only [List.mem_filter, Bool.and_eq_true, and_assoc]

/-- Membership in the result of a crop with `proper = true`. -/
theorem mem_process_crop_proper (store : List Point) (V : Rectangle) (c : CropSpec)
    (hacc : c.accepted) (hp : c.proper = some true) (id : Int) :
    ∃ S, process_crop store V c = .ok S ∧
      (id ∈ S ↔
        (∃ p ∈ store, (c.region.sent.contains p.x p.y = true ∧ passes_category c p = true ∧
            passes_groups c p = true ∧ group_inside store c.region.sent p.group_id = true ∧
            group_inside store V p.group_id = true) ∧ p.id = id) ∧
        (∃ q ∈ store, V.contains q.x q.y = true ∧ q.id = id)) := by
  refine ⟨_, process_crop_accepted store V c hacc, ?_⟩
  rw [if_pos hp, Finset.mem_inter, mem_proper_rows, mem_get_valid_point_ids]
  simp only [List.mem_filter, Bool.and_eq_true, mem_get_proper_groups]
  constructor
  · rintro ⟨⟨p, ⟨hp, ⟨hR, hc⟩, hg⟩, ⟨_, hV⟩, hRg, hid⟩, hv⟩
    exact ⟨⟨p, hp, ⟨hR, hc, hg, hRg, hV⟩, hid⟩, hv⟩
  · rintro ⟨⟨p, hp, ⟨hR, hc, hg, hRg, hV⟩, hid⟩, hv⟩
    exact ⟨⟨p, ⟨hp, ⟨hR, hc⟩, hg⟩, ⟨⟨p, hp, rfl⟩, hV⟩, hRg, hid⟩, hv⟩

/-- Closed form of a crop without `proper` on a table with unique ids. -/
theorem process_crop_plain (store : List Point) (V : Rectangle) (c : CropSpec)
    (hU : unique_ids store) (hacc : c.accepted) (hp : c.proper ≠ some true) :
    process_crop store V c = .ok (ids_where store (fun p =>
      c.region.sent.contains p.x p.y && passes_category c p && passes_groups c p &&
        V.contains p.x p.y)) := by
  obtain ⟨S, hS, _⟩ := mem_process_crop_plain store V c hacc hp 0
  rw [hS]
  congr 1
  ext id
  obtain ⟨S2, hS2, hmem⟩ := mem_process_crop_plain store V c hacc hp id
  rw [hS] at hS2
  cases hS2
  rw [hmem, exists_both_of_unique hU, mem_ids_where]
  simp only [Bool.and_eq_true, and_assoc]

/-- Closed form of a crop with `proper = true` on a table with unique ids. -/
theorem process_crop_proper (store : List Point) (V : Rectangle) (c : CropSpec)
    (hU : unique_ids store) (hacc : c.accepted) (hp : c.proper = some true) :
    process_crop store V c = .ok (ids_where store (fun p =>
      c.region.sent.contains p.x p.y && passes_category c p && passes_groups c p &&
        V.contains p.x p.y && group_inside store c.region.sent p.group_id &&
        group_inside store V p.group_id)) := by
  obtain ⟨S, hS, _⟩ := mem_process_crop_proper store V c hacc hp 0
  rw [hS]
  congr 1
  ext id
  obtain ⟨S2, hS2, hmem⟩ := mem_process_crop_proper store V c hacc hp id
  rw [hS] at hS2
  cases hS2
  rw [hmem, exists_both_of_unique hU, mem_ids_where]
  simp only [Bool.and_eq_true]
  constructor
  · rintro ⟨p, hp, ⟨⟨hR, hc, hg, hRg, hVg⟩, hV⟩, hid⟩
    exact ⟨p, hp, ⟨⟨⟨⟨⟨hR, hc⟩, hg⟩, hV⟩, hRg⟩, hVg⟩, hid⟩
  · rintro ⟨p, hp, ⟨⟨⟨⟨⟨hR, hc⟩, hg⟩, hV⟩, hRg⟩, hVg⟩, hid⟩
    exact ⟨p, hp, ⟨⟨hR, hc, hg, hRg, hVg⟩, hV⟩, hid⟩

/-! ### Result assembly -/

theorem mem_ascending (s : Finset Int) (x : Int) : x ∈ ascending s ↔ x ∈ s := by
  obtain ⟨⟨l⟩, hl⟩ := s
  show x ∈ l.insertionSort (· ≤ ·) ↔ _
  rw [List.mem_insertionSort]
  rfl

theorem ascending_nodup (s : Finset Int) : (ascending s).Nodup := by
  obtain ⟨⟨l⟩, hl⟩ := s
  show (l.insertionSort (· ≤ ·)).Nodup
  exact (List.perm_insertionSort _ l).nodup_iff.mpr hl

theorem head_filter_id {store : List Point} {id : Int} {p : Point}
    (h : (store.filter (fun row => decide (row.id = id))).head? = some p) :
    p ∈ store ∧ p.id = id := by
  have hm : p ∈ store.filter (fun row => decide (row.id = id)) := List.mem_of_mem_head? h
  rw [List.mem_filter] at hm
  exact ⟨hm.1, by simpa using hm.2⟩

theorem mem_fetch_points {store : List Point} {ids : Finset Int} {p : Point}
    (h : p ∈ fetch_points store ids) : p ∈ store ∧ p.id ∈ ids := by
  unfold fetch_points at h
  rw [List.mem_filterMap] at h
  obtain ⟨id, hid, hp⟩ := h
  have := head_filter_id hp
  refine ⟨this.1, ?_⟩
  rw [this.2]
  exact (mem_ascending ids id).mp hid

theorem filterMap_ids_nodup (store : List Point) (l : List Int) (hl : l.Nodup) :
    ((l.filterMap (fun id =>
      (store.filter (fun row => decide (row.id = id))).head?)).map Point.id).Nodup := by
  induction l with
  | nil => simp
  | cons a l ih =>
    rw [List.nodup_cons] at hl
    rw [List.filterMap_cons]
    cases hh : (store.filter (fun row => decide (row.id = a))).head? with
    | none => exact ih hl.2
    | some p =>
      simp only [List.map_cons, List.nodup_cons]
      refine ⟨?_, ih hl.2⟩
      intro hmem
      rw [List.mem_map] at hmem
      obtain ⟨q, hq, hqp⟩ := hmem
      rw [List.mem_filterMap] at hq
      obtain ⟨b, hb, hqb⟩ := hq
      have h1 := (head_filter_id hqb).2
      have h2 := (head_filter_id hh).2
      have : b = a := by rw [← h1, hqp, h2]
      exact hl.1 (this ▸ hb)

theorem fetch_points_ids_nodup (store : List Point) (ids : Finset Int) :
    ((fetch_points store ids).map Point.id).Nodup :=
  filterMap_ids_nodup store (ascending ids) (ascending_nodup ids)

theorem lt_false_iff (p q : Point) :
    Point.lt q p = false ↔ p.y < q.y ∨ (p.y = q.y ∧ p.x ≤ q.x) := by
  unfold Point.lt
  by_cases h : q.y = p.y
  · simp [h]
  · have h2 : ¬ p.y = q.y := fun e => h e.symm
    simp only [ne_eq, h, not_false_eq_true, if_true, decide_eq_false_iff_not, not_lt, h2,
      false_and, or_false]
    constructor
    · intro hle
      exact lt_of_le_of_ne hle h2
    · intro hlt
      exact le_of_lt hlt

theorem sort_points_perm (points : List Point) : (sort_points points).Perm points :=
  List.perm_insertionSort _ points

theorem sort_points_sorted (points : List Point) :
    (sort_points points).Pairwise (fun p q => p.y < q.y ∨ (p.y = q.y ∧ p.x ≤ q.x)) := by
  haveI : IsTotal Point (fun p q => Point.lt q p = false) := ⟨by
    intro p q
    rw [lt_false_iff, lt_false_iff]
    rcases lt_trichotomy p.y q.y with h | h | h
    · exact Or.inl (Or.inl h)
    · rcases le_total p.x q.x with hx | hx
      · exact Or.inl (Or.inr ⟨h, hx⟩)
      · exact Or.inr (Or.inr ⟨h.symm, hx⟩)
    · exact Or.inr (Or.inl h)⟩
  haveI : IsTrans Point (fun p q => Point.lt q p = false) := ⟨by
    intro p q s
    simp only [lt_false_iff]
    rintro (h1 | ⟨h1, h1x⟩) (h2 | ⟨h2, h2x⟩)
    · exact Or.inl (lt_trans h1 h2)
    · exact Or.inl (h2 ▸ h1)
    · exact Or.inl (h1 ▸ h2)
    · exact Or.inr ⟨h1.trans h2, le_trans h1x h2x⟩⟩
  have hs := List.sorted_insertionSort (fun p q : Point => Point.lt q p = false) points
  unfold sort_points
  exact List.Pairwise.imp (fun {p q} h => (lt_false_iff p q).mp h) hs

theorem execute_query_of_ok {store : List Point} {doc : QueryDoc} {ids : Finset Int}
    (h : process_query store doc.valid_region doc.query = .ok ids) :
    execute_query store doc = .ok (sort_points (fetch_points store ids)) := by
  unfold execute_query
  simp only [h]
  rfl

theorem execute_query_of_error {store : List Point} {doc : QueryDoc} {e : EngineError}
    (h : process_query store doc.valid_region doc.query = .error e) :
    execute_query store doc = .error e := by
  unfold execute_query
  simp only [h]
  rfl

theorem execute_query_ok_inv {store : List Point} {doc : QueryDoc} {out : List Point}
    (h : execute_query store doc = .ok out) :
    ∃ ids, process_query store doc.valid_region doc.query = .ok ids ∧
      out = sort_points (fetch_points store ids) := by
  cases hq : process_query store doc.valid_region doc.query with
  | error e =>
    rw [execute_query_of_error hq] at h
    exact Except.noConfusion h
  | ok ids =>
    rw [execute_query_of_ok hq] at h
    cases h
    exact ⟨ids, rfl, rfl⟩

theorem process_query_accepted (store : List Point) (V : Rectangle) (q : QueryNode)
    (h : q.accepted) : ∃ ids, process_query store V q = .ok ids := by
  unfold process_query
  cases hc : q.operator_crop with
  | none => exact ⟨∅, rfl⟩
  | some c => exact ⟨_, process_crop_accepted store V c (h c hc)⟩

theorem execute_query_eq_assemble (store : List Point) (doc : QueryDoc) :
    execute_query store doc =
      (process_query store doc.valid_region doc.query >>= assemble_result store) := rfl

theorem head_filter_id_of_mem {store : List Point} {id : Int}
    (h : ∃ p ∈ store, p.id = id) :
    ∃ p, (store.filter (fun row => decide (row.id = id))).head? = some p := by
  obtain ⟨p, hp, hpid⟩ := h
  have hm : p ∈ store.filter (fun row => decide (row.id = id)) := by
    rw [List.mem_filter]
    exact ⟨hp, by simpa using hpid⟩
  cases hl : store.filter (fun row => decide (row.id = id)) with
  | nil => rw [hl] at hm; cases hm
  | cons a l => exact ⟨a, rfl⟩

/-- The ids of the fetched records: the ids of the set that have a row in the table. -/
theorem mem_fetch_points_ids (store : List Point) (ids : Finset Int) (id : Int) :
    id ∈ (fetch_points store ids).map Point.id ↔ id ∈ ids ∧ ∃ p ∈ store, p.id = id := by
  unfold fetch_points
  simp only [List.mem_map, List.mem_filterMap, mem_ascending]
  constructor
  · rintro ⟨p, ⟨i, hi, hh⟩, hpid⟩
    have := head_filter_id hh
    have hi2 : i = id := by rw [← this.2, hpid]
    subst hi2
    exact ⟨hi, p, this.1, hpid⟩
  · rintro ⟨hi, hex⟩
    obtain ⟨p, hh⟩ := head_filter_id_of_mem hex
    exact ⟨p, ⟨id, hi, hh⟩, (head_filter_id hh).2⟩

theorem mem_sort_points_ids (points : List Point) (id : Int) :
    id ∈ (sort_points points).map Point.id ↔ id ∈ points.map Point.id :=
  ((sort_points_perm points).map Point.id).mem_iff

/-- Every id that `process_query` returns is the id of a row of the table. -/
theorem process_query_ids_stored {store : List Point} {V : Rectangle} {q : QueryNode}
    {ids : Finset Int} (h : process_query store V q = .ok ids) :
    ∀ id ∈ ids, ∃ p ∈ store, p.id = id := by
  intro id hid
  unfold process_query at h
  cases hc : q.operator_crop with
  | none =>
    rw [hc] at h
    cases h
    simp at hid
  | some c =>
    rw [hc] at h
    have h : process_crop store V c = .ok ids := h
    have hacc := process_crop_ok_accepted h
    rw [process_crop_accepted store V c hacc] at h
    cases h
    obtain ⟨p, hp, _, hpid⟩ :=
      (mem_get_valid_point_ids store V id).mp (Finset.mem_inter.mp hid).2
    exact ⟨p, hp, hpid⟩

/-! ### Invalid geometry and the proper branch, on accepted crops -/

theorem sent_eq_of_prints_exactly {r : Rectangle} (h : r.prints_exactly) : r.sent = r := by
  obtain ⟨h1, h2, h3, h4⟩ := h
  cases r
  simp only [Rectangle.sent] at *
  rw [h1, h2, h3, h4]

theorem contains_false_of_invalid {r : Rectangle} (h : r.invalid) (x y : ℚ) :
    ¬ r.contains x y = true := by
  rw [contains_iff]
  rintro ⟨h1, h2, h3, h4⟩
  rcases h with h | h
  · exact absurd (le_trans h1 h2) (not_le.mpr h)
  · exact absurd (le_trans h3 h4) (not_le.mpr h)

/-- A crop whose region, as written into the SQL text, has `min > max` on an axis
returns the empty set, when the store accepts its statement. -/
theorem process_crop_invalid_region (store : List Point) (V : Rectangle) (c : CropSpec)
    (hacc : c.accepted) (hinv : c.region.sent.invalid) : process_crop store V c = .ok ∅ := by
  rw [process_crop_accepted store V c hacc]
  congr 1
  have hnil : store.filter (fun p =>
      c.region.sent.contains p.x p.y && passes_category c p && passes_groups c p) = [] := by
    rw [List.filter_eq_nil_iff]
    intro p _ hp
    simp only [Bool.and_eq_true] at hp
    exact contains_false_of_invalid hinv p.x p.y hp.1.1
  rw [hnil]
  by_cases hp : c.proper = some true
  · rw [if_pos hp]
    simp [proper_rows]
  · rw [if_neg hp]
    simp

/-- Under a valid region with `min > max` on an axis every accepted crop returns the
empty set. -/
theorem process_crop_invalid_valid_region (store : List Point) (V : Rectangle)
    (c : CropSpec) (hacc : c.accepted) (hinv : V.invalid) :
    process_crop store V c = .ok ∅ := by
  rw [process_crop_accepted store V c hacc]
  congr 1
  have hv : get_valid_point_ids store V = ∅ := by
    ext id
    rw [mem_get_valid_point_ids]
    constructor
    · rintro ⟨p, _, hin, _⟩
      exact absurd hin (contains_false_of_invalid hinv p.x p.y)
    · intro h
      simp at h
  rw [hv, Finset.inter_empty]

/-- Closed form of a crop with `proper = true`, with no assumption on the ids: the rows in
the region as sent that pass the filters and whose group lies inside the region as sent
and inside the valid region. -/
theorem process_crop_proper_exact (store : List Point) (V : Rectangle) (c : CropSpec)
    (hacc : c.accepted) (hp : c.proper = some true) :
    process_crop store V c = .ok (ids_where store (fun p =>
      c.region.sent.contains p.x p.y && passes_category c p && passes_groups c p &&
        group_inside store c.region.sent p.group_id && group_inside store V p.group_id)) := by
  obtain ⟨S, hS, _⟩ := mem_process_crop_proper store V c hacc hp 0
  rw [hS]
  congr 1
  ext id
  obtain ⟨S2, hS2, hmem⟩ := mem_process_crop_proper store V c hacc hp id
  rw [hS] at hS2
  cases hS2
  rw [hmem, mem_ids_where]
  simp only [Bool.and_eq_true]
  constructor
  · rintro ⟨⟨p, hp, ⟨hR, hc, hg, hRg, hVg⟩, hid⟩, _⟩
    exact ⟨p, hp, ⟨⟨⟨⟨hR, hc⟩, hg⟩, hRg⟩, hVg⟩, hid⟩
  · rintro ⟨p, hp, ⟨⟨⟨⟨hR, hc⟩, hg⟩, hRg⟩, hVg⟩, hid⟩
    exact ⟨⟨p, hp, ⟨hR, hc, hg, hRg, hVg⟩, hid⟩,
      ⟨p, hp, (group_inside_iff store V p.group_id).mp hVg p hp rfl, hid⟩⟩

/-- The result with `proper = true` is contained in the result of the same crop with
`proper = false`. -/
theorem process_crop_proper_subset (store : List Point) (V : Rectangle) (c : CropSpec)
    (hacc : c.accepted) (hp : c.proper = some true) :
    ∃ S S0, process_crop store V c = .ok S ∧
      process_crop store V ⟨c.region, c.category, c.one_of_groups, some false⟩ = .ok S0 ∧
      S ⊆ S0 := by
  have hacc0 : CropSpec.accepted ⟨c.region, c.category, c.one_of_groups, some false⟩ := hacc
  have hp0 : (⟨c.region, c.category, c.one_of_groups, some false⟩ : CropSpec).proper
      ≠ some true := by simp
  obtain ⟨S, hS, _⟩ := mem_process_crop_proper store V c hacc hp 0
  obtain ⟨S0, hS0, _⟩ := mem_process_crop_plain store V _ hacc0 hp0 0
  refine ⟨S, S0, hS, hS0, ?_⟩
  intro id hid
  obtain ⟨S2, hS2, hmem⟩ := mem_process_crop_proper store V c hacc hp id
  rw [hS] at hS2
  cases hS2
  obtain ⟨S3, hS3, hmem0⟩ := mem_process_crop_plain store V _ hacc0 hp0 id
  rw [hS0] at hS3
  cases hS3
  rw [hmem0]
  obtain ⟨⟨p, hp, ⟨hR, hc, hg, _, _⟩, hpid⟩, hv⟩ := hmem.mp hid
  exact ⟨⟨p, hp, ⟨hR, hc, hg⟩, hpid⟩, hv⟩

/-- When the crop region as sent is contained in the valid region, the result with
`proper = true` is the set of filtered points whose group lies entirely in the region as
sent. -/
theorem process_crop_proper_inside (store : List Point) (V : Rectangle) (c : CropSpec)
    (hacc : c.accepted) (hp : c.proper = some true) (hin : c.region.sent.inside V) :
    process_crop store V c = .ok (ids_where store (fun p =>
      c.region.sent.contains p.x p.y && passes_category c p && passes_groups c p &&
        group_inside store c.region.sent p.group_id)) := by
  rw [process_crop_proper_exact store V c hacc hp]
  congr 1
  ext id
  rw [mem_ids_where, mem_ids_where]
  simp only [Bool.and_eq_true]
  constructor
  · rintro ⟨p, hp, ⟨h, _⟩, hid⟩
    exact ⟨p, hp, h, hid⟩
  · rintro ⟨p, hp, h, hid⟩
    refine ⟨p, hp, ⟨h, ?_⟩, hid⟩
    rw [group_inside_iff]
    intro q hq hg
    have hq2 := (group_inside_iff store c.region.sent p.group_id).mp h.2 q hq hg
    rw [contains_iff] at hq2 ⊢
    obtain ⟨h1, h2, h3, h4⟩ := hin
    exact ⟨le_trans h1 hq2.1, le_trans hq2.2.1 h2, le_trans h3 hq2.2.2.1,
      le_trans hq2.2.2.2 h4⟩

/-- On a table with unique ids, every stored point of the group of a point returned by a
crop with `proper = true` lies inside the crop region as sent. -/
theorem proper_group_inside_sent (store : List Point) (V : Rectangle)
    (c : CropSpec) (hU : unique_ids store) (hproper : c.proper = some true)
    (S : Finset Int) (hS : process_crop store V c = .ok S) (id : Int) (hid : id ∈ S)
    (p : Point) (hp : p ∈ store) (hpid : p.id = id)
    (q : Point) (hq : q ∈ store) (hg : q.group_id = p.group_id) :
    c.region.sent.contains q.x q.y = true := by
  have hacc := process_crop_ok_accepted hS
  obtain ⟨S2, hS2, hmem⟩ := mem_process_crop_proper store V c hacc hproper id
  rw [hS] at hS2
  cases hS2
  obtain ⟨⟨p2, hp2, ⟨_, _, _, hRg, _⟩, hid2⟩, _⟩ := hmem.mp hid
  have hpp : p2 = p := eq_of_unique_ids hU hp2 hp (hid2.trans hpid.symm)
  subst hpp
  exact (group_inside_iff store c.region.sent p2.group_id).mp hRg q hq hg

/-! ### The printed bounds at values with more than 6 significant digits -/

/-- A bound with 7 significant digits is sent rounded: the crop `[0,0]-[1234567,10]`
without `proper` is sent with `coord_x <= 1.23457e+06` and returns the point at
`x = 1234569`, which lies outside the region. -/
theorem printed_bounds_widen_plain_crop :
    sql_literal 1234567 = 1234570 ∧
      process_crop [⟨1, 1234567, 5, 1, 0⟩, ⟨2, 1234569, 5, 1, 0⟩] (rect 0 0 2000000 10)
        (cropOf (rect 0 0 1234567 10)) = .ok {1, 2} ∧
      (rect 0 0 1234567 10).contains 1234569 5 = false := by
  decide

/-- A region with `x_min > x_max` can be sent as a region with `x_min = x_max`: the crop
`[1234568,0]-[1234567,10]` is sent with both `x` bounds printed as `1.23457e+06` and
returns the point at `x = 1234570`. -/
theorem printed_bounds_revive_invalid_region :
    (rect 1234568 0 1234567 10).invalid ∧
      process_crop [⟨1, 1234570, 5, 1, 0⟩] (rect 0 0 2000000 10)
        (cropOf (rect 1234568 0 1234567 10)) = .ok {1} := by
  decide

/-! ### Claims -/

/-- C1 (evaluation at the failing input): on the fixture store, the crop
`[0,0]-[100,100]` without `proper` and with `one_of_groups = []` makes `process_crop`
raise the store's syntax error, where the claim has it return the empty set of ids (the
set of stored points passing all filters is empty there). -/
theorem C1_empty_group_list_raises :
    process_crop fixture (rect 0 0 100 100) ⟨rect 0 0 100 100, none, some [], none⟩
        = .error .sql_syntax_error ∧
      ids_where fixture (fun p =>
        (rect 0 0 100 100).contains p.x p.y &&
          passes_category ⟨rect 0 0 100 100, none, some [], none⟩ p &&
          passes_groups ⟨rect 0 0 100 100, none, some [], none⟩ p &&
          (rect 0 0 100 100).contains p.x p.y) = ∅ := by
  decide

/-- C2 (evaluation at the failing input): on the fixture store with valid region
`[0,0]-[100,100]`, `process_query` returns the empty set for the `operator_and` of the
crops `[0,0]-[35,35]` and `[15,15]-[55,55]`, although it returns `{1,2,3}` and
`{2,3,5,6}` for the two children, whose intersection is `{2,3}`; it also returns the empty
set for the `operator_and` of the first crop alone and for the nested query of the test
`ComplexNestedQuery`, which expects `{2,5}`. -/
theorem C2_operator_and_returns_empty :
    process_query fixture (rect 0 0 100 100)
        (opAnd [opCrop (cropOf (rect 0 0 35 35)), opCrop (cropOf (rect 15 15 55 55))])
        = .ok ∅ ∧
      process_query fixture (rect 0 0 100 100) (opCrop (cropOf (rect 0 0 35 35)))
        = .ok {1, 2, 3} ∧
      process_query fixture (rect 0 0 100 100) (opCrop (cropOf (rect 15 15 55 55)))
        = .ok {2, 3, 5, 6} ∧
      ({1, 2, 3} ∩ {2, 3, 5, 6} : Finset Int) = {2, 3} ∧
      process_query fixture (rect 0 0 100 100) (opAnd [opCrop (cropOf (rect 0 0 35 35))])
        = .ok ∅ ∧
      process_query fixture (rect 0 0 100 100)
        (opAnd [opCrop ⟨rect 0 0 100 100, none, some [0, 2], none⟩,
          opOr [opCrop (cropOf (rect 15 15 25 25)), opCrop (cropOf (rect 35 35 45 45))]])
        = .ok ∅ := by
  decide

/-- C3 (evaluation at the failing input): on the fixture store with valid region
`[0,0]-[100,100]`, `process_query` returns the empty set for the `operator_or` of the
crops `[5,5]-[15,15]` and `[45,45]-[55,55]`, although it returns `{1}` and `{6}` for the
two children, whose union is `{1,6}`. -/
theorem C3_operator_or_returns_empty :
    process_query fixture (rect 0 0 100 100)
        (opOr [opCrop (cropOf (rect 5 5 15 15)), opCrop (cropOf (rect 45 45 55 55))])
        = .ok ∅ ∧
      process_query fixture (rect 0 0 100 100) (opCrop (cropOf (rect 5 5 15 15)))
        = .ok {1} ∧
      process_query fixture (rect 0 0 100 100) (opCrop (cropOf (rect 45 45 55 55)))
        = .ok {6} ∧
      ({1} ∪ {6} : Finset Int) = {1, 6} := by
  decide

/-- C4 (counterexample): on the fixture store with valid region `[0,0]-[100,100]`, the
crop `[0,0]-[200,200]` with `proper = true` returns `{1,2,5,6}`, whereas the points that
lie in the region and in the valid region and whose group lies entirely in the region
are `{1,2,3,5,6}`: group 1 is inside the crop region, but its point 4 is outside the
valid region. -/
theorem C4_counterexample :
    process_crop fixture (rect 0 0 100 100) ⟨rect 0 0 200 200, none, none, some true⟩
        = .ok {1, 2, 5, 6} ∧
      ids_where fixture (fun p =>
        (rect 0 0 200 200).contains p.x p.y &&
          passes_category ⟨rect 0 0 200 200, none, none, some true⟩ p &&
          passes_groups ⟨rect 0 0 200 200, none, none, some true⟩ p &&
          (rect 0 0 100 100).contains p.x p.y &&
          group_inside fixture (rect 0 0 200 200) p.group_id) = {1, 2, 3, 5, 6} ∧
      process_crop fixture (rect 0 0 100 100) ⟨rect 0 0 200 200, none, none, some true⟩
        ≠ .ok (ids_where fixture (fun p =>
          (rect 0 0 200 200).contains p.x p.y &&
            passes_category ⟨rect 0 0 200 200, none, none, some true⟩ p &&
            passes_groups ⟨rect 0 0 200 200, none, none, some true⟩ p &&
            (rect 0 0 100 100).contains p.x p.y &&
            group_inside fixture (rect 0 0 200 200) p.group_id)) := by
  decide

/-- C4 (amended): for a table with unique ids, a valid region `V` and a crop with
`proper = true` whose four region bounds are printed exactly by the 6-digit rendering
and whose `one_of_groups` is absent or non-empty, `process_crop` returns exactly the ids
of the stored points that lie in the crop region `R`, pass the category and group
filters when present, lie in `V`, and whose group has all its stored points inside `R`
and inside `V`.  On the fixture the crop `[0,0]-[100,100]` with valid region
`[0,0]-[100,100]` returns `{1,2,5,6}`. -/
theorem C4_proper_crop_both_regions (store : List Point) (V : Rectangle) (c : CropSpec)
    (hU : unique_ids store) (hacc : c.accepted) (hexact : c.region.prints_exactly)
    (hp : c.proper = some true) :
    process_crop store V c = .ok (ids_where store (fun p =>
        c.region.contains p.x p.y && passes_category c p && passes_groups c p &&
          V.contains p.x p.y && group_inside store c.region p.group_id &&
          group_inside store V p.group_id)) ∧
      process_crop fixture (rect 0 0 100 100) ⟨rect 0 0 100 100, none, none, some true⟩
        = .ok {1, 2, 5, 6} := by
  have h := process_crop_proper store V c hU hacc hp
  rw [sent_eq_of_prints_exactly hexact] at h
  exact ⟨h, by decide⟩

/-- Witness of C4 (amended) on the fixture: crop `[0,0]-[200,200]`, `category = 1`,
`one_of_groups = [1, 2]`, `proper = true`, valid region `[0,0]-[100,100]`. -/
theorem C4_proper_crop_both_regions_witness :
    unique_ids fixture ∧
      CropSpec.accepted ⟨rect 0 0 200 200, some 1, some [1, 2], some true⟩ ∧
      (rect 0 0 200 200).prints_exactly ∧
      process_crop fixture (rect 0 0 100 100)
          ⟨rect 0 0 200 200, some 1, some [1, 2], some true⟩ = .ok {5, 6} :=
  ⟨by decide, by decide, by decide,
    ((C4_proper_crop_both_regions fixture (rect 0 0 100 100)
      ⟨rect 0 0 200 200, some 1, some [1, 2], some true⟩
      (by decide) (by decide) (by decide) rfl).1).trans (by decide)⟩

/-- C5: for a valid region `V`, every id in a set returned by `process_crop` (any crop) is
the id of a stored point inside `V`, and, on a table with unique ids, every record in a
list returned by `execute_query` (any query object) is a stored point inside `V`; both
functions do return whenever the crop's `one_of_groups` is absent or non-empty. -/
theorem C5_valid_region_mask (store : List Point) (V : Rectangle) :
    (∀ c S, process_crop store V c = .ok S → ∀ id ∈ S,
        ∃ p ∈ store, p.id = id ∧
          V.x_min ≤ p.x ∧ p.x ≤ V.x_max ∧ V.y_min ≤ p.y ∧ p.y ≤ V.y_max) ∧
      (unique_ids store → ∀ q out, execute_query store ⟨V, q⟩ = .ok out → ∀ p ∈ out,
        p ∈ store ∧ V.x_min ≤ p.x ∧ p.x ≤ V.x_max ∧ V.y_min ≤ p.y ∧ p.y ≤ V.y_max) ∧
      (∀ c, c.accepted → ∃ S, process_crop store V c = .ok S) ∧
      (∀ q, q.accepted → ∃ out, execute_query store ⟨V, q⟩ = .ok out) := by
  have hcrop : ∀ c S, process_crop store V c = .ok S → ∀ id ∈ S,
      ∃ p ∈ store, p.id = id ∧
        V.x_min ≤ p.x ∧ p.x ≤ V.x_max ∧ V.y_min ≤ p.y ∧ p.y ≤ V.y_max := by
    intro c S hS id hid
    have hacc := process_crop_ok_accepted hS
    rw [process_crop_accepted store V c hacc] at hS
    cases hS
    have hv := (Finset.mem_inter.mp hid).2
    obtain ⟨p, hp, hin, hpid⟩ := (mem_get_valid_point_ids store V id).mp hv
    exact ⟨p, hp, hpid, (contains_iff V p.x p.y).mp hin⟩
  refine ⟨hcrop, ?_, ?_, ?_⟩
  · intro hU q out hout p hp
    obtain ⟨ids, hids, rfl⟩ := execute_query_ok_inv hout
    have hpf : p ∈ fetch_points store ids := (sort_points_perm _).mem_iff.mp hp
    obtain ⟨hps, hpi⟩ := mem_fetch_points hpf
    refine ⟨hps, ?_⟩
    simp only [process_query] at hids
    cases hc : q.operator_crop with
    | none =>
      rw [hc] at hids
      cases hids
      simp at hpi
    | some c =>
      rw [hc] at hids
      obtain ⟨p2, hp2, hid2, hb⟩ := hcrop c ids hids p.id hpi
      have : p2 = p := eq_of_unique_ids hU hp2 hps hid2
      rw [← this]
      exact hb
  · intro c hacc
    exact ⟨_, process_crop_accepted store V c hacc⟩
  · intro q hacc
    obtain ⟨ids, hids⟩ := process_query_accepted store V q hacc
    exact ⟨_, @execute_query_of_ok store ⟨V, q⟩ _ hids⟩

/-- Witness of C5 on the fixture: crop `[15,15]-[200,200]` under valid region
`[0,0]-[100,100]`; point 4 at `(150,150)` is in the crop region and is masked. -/
theorem C5_valid_region_mask_witness :
    unique_ids fixture ∧
      (∃ p ∈ fixture, p.id = 3 ∧
        (0 : ℚ) ≤ p.x ∧ p.x ≤ 100 ∧ (0 : ℚ) ≤ p.y ∧ p.y ≤ 100) ∧
      ((⟨3, 30, 30, 1, 1⟩ : Point) ∈ fixture ∧
        (0 : ℚ) ≤ 30 ∧ (30 : ℚ) ≤ 100 ∧ (0 : ℚ) ≤ 30 ∧ (30 : ℚ) ≤ 100) ∧
      (∃ S, process_crop fixture (rect 0 0 100 100) (cropOf (rect 15 15 200 200)) = .ok S) ∧
      (∃ out, execute_query fixture
        ⟨rect 0 0 100 100, opCrop (cropOf (rect 15 15 200 200))⟩ = .ok out) :=
  ⟨by decide,
    (C5_valid_region_mask fixture (rect 0 0 100 100)).1
      (cropOf (rect 15 15 200 200)) {3, 5, 6, 2} (by decide) 3 (by decide),
    (C5_valid_region_mask fixture (rect 0 0 100 100)).2.1 (by decide)
      (opCrop (cropOf (rect 15 15 200 200)))
      [⟨2, 20, 20, 2, 0⟩, ⟨3, 30, 30, 1, 1⟩, ⟨5, 40, 40, 1, 2⟩, ⟨6, 50, 50, 1, 2⟩]
      (by decide) ⟨3, 30, 30, 1, 1⟩ (by decide),
    (C5_valid_region_mask fixture (rect 0 0 100 100)).2.2.1
      (cropOf (rect 15 15 200 200)) (by decide),
    (C5_valid_region_mask fixture (rect 0 0 100 100)).2.2.2
      (opCrop (cropOf (rect 15 15 200 200)))
      (fun c h => Option.some.inj h ▸ (by decide))⟩

/-- C6: every list returned by `execute_query` is sorted ascending by `y`, ties on `y`
broken ascending by `x`: of two records, the earlier one has the smaller `y`, or the same
`y` and an `x` that is not larger.  A list is returned for every query object whose crop,
if any, has `one_of_groups` absent or non-empty. -/
theorem C6_output_sorted (store : List Point) (doc : QueryDoc) :
    (∀ out, execute_query store doc = .ok out →
        out.Pairwise (fun p q => p.y < q.y ∨ (p.y = q.y ∧ p.x ≤ q.x))) ∧
      (doc.query.accepted → ∃ out, execute_query store doc = .ok out) := by
  constructor
  · intro out hout
    obtain ⟨ids, _, rfl⟩ := execute_query_ok_inv hout
    exact sort_points_sorted _
  · intro hacc
    obtain ⟨ids, hids⟩ := process_query_accepted store doc.valid_region doc.query hacc
    exact ⟨_, execute_query_of_ok hids⟩

/-- Witness of C6 on a four-row table with ties on `y`. -/
theorem C6_output_sorted_witness :
    execute_query [⟨1, 5, 9, 1, 0⟩, ⟨2, 7, 3, 1, 0⟩, ⟨3, 2, 9, 1, 1⟩, ⟨4, 4, 3, 2, 1⟩]
        ⟨rect 0 0 10 10, opCrop (cropOf (rect 0 0 10 10))⟩
        = .ok [⟨4, 4, 3, 2, 1⟩, ⟨2, 7, 3, 1, 0⟩, ⟨3, 2, 9, 1, 1⟩, ⟨1, 5, 9, 1, 0⟩] ∧
      List.Pairwise (fun p q : Point => p.y < q.y ∨ (p.y = q.y ∧ p.x ≤ q.x))
        [⟨4, 4, 3, 2, 1⟩, ⟨2, 7, 3, 1, 0⟩, ⟨3, 2, 9, 1, 1⟩, ⟨1, 5, 9, 1, 0⟩] ∧
      (∃ out, execute_query
        [⟨1, 5, 9, 1, 0⟩, ⟨2, 7, 3, 1, 0⟩, ⟨3, 2, 9, 1, 1⟩, ⟨4, 4, 3, 2, 1⟩]
        ⟨rect 0 0 10 10, opCrop (cropOf (rect 0 0 10 10))⟩ = .ok out) :=
  ⟨by decide,
    (C6_output_sorted [⟨1, 5, 9, 1, 0⟩, ⟨2, 7, 3, 1, 0⟩, ⟨3, 2, 9, 1, 1⟩, ⟨4, 4, 3, 2, 1⟩]
      ⟨rect 0 0 10 10, opCrop (cropOf (rect 0 0 10 10))⟩).1 _ (by decide),
    (C6_output_sorted [⟨1, 5, 9, 1, 0⟩, ⟨2, 7, 3, 1, 0⟩, ⟨3, 2, 9, 1, 1⟩, ⟨4, 4, 3, 2, 1⟩]
      ⟨rect 0 0 10 10, opCrop (cropOf (rect 0 0 10 10))⟩).2
      (fun c h => Option.some.inj h ▸ (by decide))⟩

/-- C7 (evaluation at the failing input): on the fixture store with valid region
`[0,0]-[100,100]`, the crop with `proper = true` and region `[0,0]-[b,b]`,
`b = 50 - 2^(-20)`, is sent with `b` printed as `50` and returns `{1,2,5,6}`.  Ids 5 and
6 belong to the points of group 2, and point 6 of that group, at `(50,50)`, lies outside
the region (point 5, at `(40,40)`, lies inside). -/
theorem C7_printed_bounds_admit_partial_group :
    process_crop fixture (rect 0 0 100 100)
        ⟨rect 0 0 just_below_50 just_below_50, none, none, some true⟩ = .ok {1, 2, 5, 6} ∧
      sql_literal just_below_50 = 50 ∧ just_below_50 < 50 ∧
      (⟨5, 40, 40, 1, 2⟩ : Point) ∈ fixture ∧ (⟨6, 50, 50, 1, 2⟩ : Point) ∈ fixture ∧
      (rect 0 0 just_below_50 just_below_50).contains 40 40 = true ∧
      (rect 0 0 just_below_50 just_below_50).contains 50 50 = false := by
  decide

/-- C9: a list returned by `execute_query` never holds two records with the same id,
whatever the query object (the stored ids need not even be unique for this); a list is
returned for every query object whose crop, if any, has `one_of_groups` absent or
non-empty. -/
theorem C9_output_ids_distinct (store : List Point) (doc : QueryDoc) :
    (∀ out, execute_query store doc = .ok out → (out.map Point.id).Nodup) ∧
      (doc.query.accepted → ∃ out, execute_query store doc = .ok out) := by
  constructor
  · intro out hout
    obtain ⟨ids, _, rfl⟩ := execute_query_ok_inv hout
    exact ((sort_points_perm _).map Point.id).nodup_iff.mpr (fetch_points_ids_nodup store ids)
  · intro hacc
    obtain ⟨ids, hids⟩ := process_query_accepted store doc.valid_region doc.query hacc
    exact ⟨_, execute_query_of_ok hids⟩

/-- Witness of C9 on the fixture: crop `[0,0]-[35,35]`. -/
theorem C9_output_ids_distinct_witness :
    execute_query fixture ⟨rect 0 0 100 100, opCrop (cropOf (rect 0 0 35 35))⟩
        = .ok [⟨1, 10, 10, 1, 0⟩, ⟨2, 20, 20, 2, 0⟩, ⟨3, 30, 30, 1, 1⟩] ∧
      List.Nodup ([1, 2, 3] : List Int) ∧
      (∃ out, execute_query fixture
        ⟨rect 0 0 100 100, opCrop (cropOf (rect 0 0 35 35))⟩ = .ok out) :=
  ⟨by decide,
    (C9_output_ids_distinct fixture
      ⟨rect 0 0 100 100, opCrop (cropOf (rect 0 0 35 35))⟩).1
      [⟨1, 10, 10, 1, 0⟩, ⟨2, 20, 20, 2, 0⟩, ⟨3, 30, 30, 1, 1⟩] (by decide),
    (C9_output_ids_distinct fixture
      ⟨rect 0 0 100 100, opCrop (cropOf (rect 0 0 35 35))⟩).2
      (fun c h => Option.some.inj h ▸ (by decide))⟩

/-- C10 (counterexample): on the fixture store, `process_query` returns the empty id set
and `execute_query` returns the empty list, not an error, for `operator_and` with zero
children, for `operator_or` with zero children and for an object with no operator key. -/
theorem C10_counterexample :
    process_query fixture (rect 0 0 100 100) (opAnd []) = .ok ∅ ∧
      execute_query fixture ⟨rect 0 0 100 100, opAnd []⟩ = .ok [] ∧
      process_query fixture (rect 0 0 100 100) (opOr []) = .ok ∅ ∧
      execute_query fixture ⟨rect 0 0 100 100, opOr []⟩ = .ok [] ∧
      process_query fixture (rect 0 0 100 100) (.mk none none none) = .ok ∅ ∧
      execute_query fixture ⟨rect 0 0 100 100, .mk none none none⟩ = .ok [] ∧
      (¬ ∃ e, process_query fixture (rect 0 0 100 100) (opAnd []) = .error e) := by
  refine ⟨rfl, by decide, rfl, by decide, rfl, by decide, ?_⟩
  rintro ⟨e, he⟩
  exact Except.noConfusion he

/-- C10 (amended): for every malformed query object (`operator_and` or `operator_or`
with zero children, or no recognised operator key) `process_query` raises nothing and
returns the empty id set, and `execute_query` returns the empty list. -/
theorem C10_malformed_yields_empty (store : List Point) (V : Rectangle) (q : QueryNode)
    (h : q.malformed) :
    process_query store V q = .ok ∅ ∧ execute_query store ⟨V, q⟩ = .ok [] := by
  have hq : process_query store V q = .ok ∅ := by
    unfold process_query
    rw [h.1]
    rfl
  refine ⟨hq, ?_⟩
  rw [@execute_query_of_ok store ⟨V, q⟩ _ hq]
  rfl

/-- Witness of C10 (amended) on the fixture: `operator_and` with zero children. -/
theorem C10_malformed_yields_empty_witness :
    (opAnd []).malformed ∧
      process_query fixture (rect 0 0 100 100) (opAnd []) = .ok ∅ ∧
      execute_query fixture ⟨rect 0 0 100 100, opAnd []⟩ = .ok [] :=
  ⟨⟨rfl, Or.inr rfl, Or.inl rfl⟩,
    C10_malformed_yields_empty fixture (rect 0 0 100 100) (opAnd [])
      ⟨rfl, Or.inr rfl, Or.inl rfl⟩⟩

/-- C11 (counterexample): on the fixture store, the result-assembly step run on the id set
`{1, 99}`, where no stored point has id 99, raises nothing and returns the list holding
point 1 alone: id 99 is left out silently. -/
theorem C11_counterexample :
    (∀ p ∈ fixture, p.id ≠ 99) ∧
      assemble_result fixture {1, 99} = .ok [⟨1, 10, 10, 1, 0⟩] ∧
      (¬ ∃ e, assemble_result fixture {1, 99} = .error e) := by
  refine ⟨by decide, by decide, ?_⟩
  rintro ⟨e, he⟩
  exact Except.noConfusion he

/-- C11 (amended): the result-assembly step of `execute_query` never raises; it returns a
list that holds a record for exactly those ids of the final id set that have a record in
the table, each once, so an id with no record is skipped.  Inside `execute_query` the ids
come from the table itself, so the returned list holds a record for every id that
`process_query` returned. -/
theorem C11_missing_id_skipped (store : List Point) (ids : Finset Int) :
    (∃ out, assemble_result store ids = .ok out ∧
        (∀ id, id ∈ out.map Point.id ↔ id ∈ ids ∧ ∃ p ∈ store, p.id = id) ∧
        (out.map Point.id).Nodup) ∧
      (∀ V q, process_query store V q = .ok ids →
        ∃ out, execute_query store ⟨V, q⟩ = .ok out ∧
          ∀ id, id ∈ out.map Point.id ↔ id ∈ ids) := by
  have hmem : ∀ id, id ∈ (sort_points (fetch_points store ids)).map Point.id ↔
      id ∈ ids ∧ ∃ p ∈ store, p.id = id := by
    intro id
    rw [mem_sort_points_ids, mem_fetch_points_ids]
  constructor
  · refine ⟨_, rfl, hmem, ?_⟩
    exact ((sort_points_perm _).map Point.id).nodup_iff.mpr (fetch_points_ids_nodup store ids)
  · intro V q hq
    refine ⟨_, @execute_query_of_ok store ⟨V, q⟩ ids hq, ?_⟩
    intro id
    rw [hmem]
    constructor
    · exact fun h => h.1
    · exact fun h => ⟨h, process_query_ids_stored hq id h⟩

/-- Witness of C11 (amended) on the fixture: the crop `[0,0]-[35,35]` returns the ids
`{1,2,3}`, and the output has a record for each of them. -/
theorem C11_missing_id_skipped_witness :
    process_query fixture (rect 0 0 100 100) (opCrop (cropOf (rect 0 0 35 35)))
        = .ok {1, 2, 3} ∧
      (∃ out, execute_query fixture
          ⟨rect 0 0 100 100, opCrop (cropOf (rect 0 0 35 35))⟩ = .ok out ∧
        ∀ id, id ∈ out.map Point.id ↔ id ∈ ({1, 2, 3} : Finset Int)) :=
  ⟨by decide,
    (C11_missing_id_skipped fixture {1, 2, 3}).2 (rect 0 0 100 100)
      (opCrop (cropOf (rect 0 0 35 35))) (by decide)⟩

/-- C12 (evaluation at the failing input): on the fixture store with valid region
`[0,0]-[100,100]`, the crop whose region `[35,15]-[15,35]` has `x_min > x_max` and whose
`one_of_groups` is the empty array makes `process_crop` raise the store's syntax error
instead of returning the empty set; so does the crop `[0,0]-[100,100]` with the empty
array under the valid region `[100,0]-[0,100]`.  With a non-empty array both return the
empty set. -/
theorem C12_invalid_geometry_empty_groups_raises :
    (rect 35 15 15 35).invalid ∧
      process_crop fixture (rect 0 0 100 100) ⟨rect 35 15 15 35, none, some [], none⟩
        = .error .sql_syntax_error ∧
      (rect 100 0 0 100).invalid ∧
      process_crop fixture (rect 100 0 0 100) ⟨rect 0 0 100 100, none, some [], none⟩
        = .error .sql_syntax_error ∧
      process_crop fixture (rect 0 0 100 100) ⟨rect 35 15 15 35, none, some [0, 1], none⟩
        = .ok ∅ ∧
      process_crop fixture (rect 100 0 0 100) ⟨rect 0 0 100 100, none, some [0, 1], none⟩
        = .ok ∅ := by
  decide

/-- C13: `Rectangle::contains(x, y)` is true exactly when `x_min ≤ x ≤ x_max` and
`y_min ≤ y ≤ y_max`; in a rectangle with `x_min ≤ x_max` and `y_min ≤ y_max` it is true on
the left and right edges (any `y` between the `y` bounds) and on the bottom and top edges
(any `x` between the `x` bounds). -/
theorem C13_contains_inclusive (r : Rectangle) (x y : ℚ) :
    (r.contains x y = true ↔
        r.x_min ≤ x ∧ x ≤ r.x_max ∧ r.y_min ≤ y ∧ y ≤ r.y_max) ∧
      (r.x_min ≤ r.x_max → r.y_min ≤ r.y_max →
        (r.y_min ≤ y → y ≤ r.y_max →
          r.contains r.x_min y = true ∧ r.contains r.x_max y = true) ∧
        (r.x_min ≤ x → x ≤ r.x_max →
          r.contains x r.y_min = true ∧ r.contains x r.y_max = true)) := by
  refine ⟨contains_iff r x y, ?_⟩
  intro hx hy
  constructor
  · intro h1 h2
    exact ⟨(contains_iff r r.x_min y).mpr ⟨le_refl _, hx, h1, h2⟩,
      (contains_iff r r.x_max y).mpr ⟨hx, le_refl _, h1, h2⟩⟩
  · intro h1 h2
    exact ⟨(contains_iff r x r.y_min).mpr ⟨h1, h2, le_refl _, hy⟩,
      (contains_iff r x r.y_max).mpr ⟨h1, h2, hy, le_refl _⟩⟩

/-- Witness of C13 on the rectangle `[15,15]-[35,35]`: the edge points `(15,20)`,
`(35,20)`, `(20,15)`, `(20,35)`. -/
theorem C13_contains_inclusive_witness :
    ((rect 15 15 35 35).contains 15 20 = true ∧ (rect 15 15 35 35).contains 35 20 = true) ∧
      ((rect 15 15 35 35).contains 20 15 = true ∧
        (rect 15 15 35 35).contains 20 35 = true) :=
  ⟨((C13_contains_inclusive (rect 15 15 35 35) 20 20).2 (by decide) (by decide)).1
      (by decide) (by decide),
    ((C13_contains_inclusive (rect 15 15 35 35) 20 20).2 (by decide) (by decide)).2
      (by decide) (by decide)⟩

/-- C14 (evaluation at the failing input): on the fixture store with valid region
`[0,0]-[100,100]`, the crop `[0,0]-[100,100]` with `proper = true` and `one_of_groups`
the empty array makes `process_crop` raise the store's syntax error, where the claim has
it return the ids of the points that pass the filters and whose group lies inside both
rectangles (no point does, the allow-list being empty); the same crop with
`proper = false` raises too. -/
theorem C14_proper_empty_groups_raises :
    process_crop fixture (rect 0 0 100 100) ⟨rect 0 0 100 100, none, some [], some true⟩
        = .error .sql_syntax_error ∧
      ids_where fixture (fun p =>
        (rect 0 0 100 100).contains p.x p.y &&
          passes_category ⟨rect 0 0 100 100, none, some [], some true⟩ p &&
          passes_groups ⟨rect 0 0 100 100, none, some [], some true⟩ p &&
          group_inside fixture (rect 0 0 100 100) p.group_id &&
          group_inside fixture (rect 0 0 100 100) p.group_id) = ∅ ∧
      process_crop fixture (rect 0 0 100 100) ⟨rect 0 0 100 100, none, some [], some false⟩
        = .error .sql_syntax_error := by
  decide

end QueryEngine
